import Mathlib

/-!
Shallow embedding of the core of the `eth-rpc-distributor` reverse proxy
(JavaScript source: `src/core/EndpointWorker.js`, `src/core/RequestRouter.js`,
`src/core/WorkerPool.js`, `src/database/StatisticsRepository.js`,
`src/utils/constants.js`).

JavaScript strings are modelled by `String`, lowercasing by mapping
`Char.toLower` (all texts involved are ASCII), substring tests
(`String.prototype.includes`) by `List.isInfixOf` on the character lists,
JavaScript numbers by `ℚ` (all arithmetic appearing in the modelled code is
exact on rationals), and absent / `null` / `undefined` fields by `Option`.
-/

namespace Distributor

/-- Lowercase a string into its character list (JS `toLowerCase` on ASCII). -/
def lowerChars (s : String) : List Char :=
  s.toList.map Char.toLower

/-- `pat` occurs as a contiguous substring of `text`. -/
def hasSubList (pat : List Char) : List Char → Bool
  | [] => pat.isEmpty
  | c :: rest => pat.isPrefixOf (c :: rest) || hasSubList pat rest

/-- JS `text.includes(kw)`: `kw` occurs as a contiguous substring of `text`. -/
def containsSub (text : List Char) (kw : String) : Bool :=
  hasSubList kw.toList text

/-- A JSON-RPC error object as read by the worker: `error.code` and
`error.message`, either possibly absent. -/
structure RpcError where
  code : Option Int
  message : Option String
deriving Repr, DecidableEq

/-- `EndpointWorker.js`: the list `temporaryErrorCodes`. -/
def temporaryErrorCodes : List Int :=
  [19, -32000, -32603, 429, 503]

/-- `EndpointWorker.js`: the list `temporaryKeywords`. -/
def temporaryKeywords : List String :=
  ["temporary", "retry", "timeout", "timed out", "unavailable",
   "connection", "network", "try again", "overloaded", "capacity"]

/-- `EndpointWorker.isTemporaryError(rpcError)`: falsy error object gives
`false`; otherwise the code is looked up in `temporaryErrorCodes` and the
lowercased message (empty when absent) is scanned for `temporaryKeywords`. -/
def isTemporaryError (rpcError : Option RpcError) : Bool :=
  match rpcError with
  | none => false
  | some err =>
    let message := lowerChars (err.message.getD "")
    let codeHit :=
      match err.code with
      | some c => temporaryErrorCodes.contains c
      | none => false
    codeHit || temporaryKeywords.any (fun kw => containsSub message kw)

/-- JS `Math.round`: round half toward positive infinity. -/
def jsRound (q : ℚ) : ℚ :=
  ((⌊q + 1/2⌋ : ℤ) : ℚ)

/-- The `rateLimit` section of the configuration object
(`src/config/config.js` defaults: threshold 0.5, min 60000, max 300000,
multiplier 2, window 20). -/
structure RateLimitConfig where
  detectionThreshold : ℚ
  minCooldownMs : ℚ
  maxCooldownMs : ℚ
  backoffMultiplier : ℚ
  historyWindowSize : Nat
deriving Repr, DecidableEq

/-- The default configuration shipped in `src/config/config.js`. -/
def defaultRateLimitConfig : RateLimitConfig :=
  { detectionThreshold := 1/2
    minCooldownMs := 60000
    maxCooldownMs := 300000
    backoffMultiplier := 2
    historyWindowSize := 20 }

/-- The parsed JSON body (`response.data`) handed to the detector: either a
raw string, or an object carrying an optional `error` member, its
`JSON.stringify` serialization (uninterpreted here), and the value found under
a `headers['retry-after']` / `headers['Retry-After']` key when the object has
one (`none` models both a missing `headers` member and a missing key). -/
inductive BodyData where
  | str (s : String)
  | obj (error : Option RpcError) (stringified : String) (retryAfter : Option String)
deriving Repr, DecidableEq

/-- A transport-level (axios) error as read by the detector and the worker:
`error.message`, `error.code`, `error.response?.status`. -/
structure TransportError where
  message : Option String
  code : Option String
  responseStatus : Option Int
deriving Repr, DecidableEq

/-- `constants.js HTTP_STATUS` values consulted by `checkHttpStatus`. -/
def rateLimitHttpStatuses : List Int :=
  [429, 503, 403]

/-- `constants.js RATE_LIMIT_KEYWORDS`. -/
def rateLimitKeywords : List String :=
  ["rate limit", "too many requests", "exceeded", "quota", "throttle", "too many"]

/-- JS `parseInt` on a string of decimal digits. -/
def digitsToNat (cs : List Char) : Nat :=
  cs.foldl (fun n c => 10 * n + (c.toNat - 48)) 0

/-- `RateLimitDetector.parseRetryAfter(responseData)`. The HTTP-date branch
(`new Date(retryAfter)`) is abstracted by the oracle `dateParse`, returning the
parsed epoch milliseconds when the string is a valid date; `now` is
`Date.now()`. A body that is a raw string has no `headers` member, so the
function returns `none` for it. An integer-seconds value is multiplied by
1000; an empty-string header value is falsy and gives `none`. -/
def parseRetryAfter (dateParse : String → Option ℤ) (now : ℤ) :
    Option BodyData → Option ℚ
  | none => none
  | some (.str _) => none
  | some (.obj _ _ retryAfter) =>
    match retryAfter with
    | none => none
    | some ra =>
      if ra = "" then none
      else if ra.toList.all Char.isDigit then
        some ((digitsToNat ra.toList : ℚ) * 1000)
      else
        match dateParse ra with
        | some t => some (max 0 ((t - now : ℤ) : ℚ))
        | none => none

/-- `StatisticsRepository.getAverageCooldown(endpointId)`: SQL
`AVG(cooldown_duration_ms)` over the endpoint's `rate_limit_events` of the
last 7 days, `NULL` when there are none; the JS wrapper also turns a zero
average into `null` (`result.avg_cooldown ? result.avg_cooldown : null`).
`events` is the list of recorded cooldown durations (all events of the
modelled runs fall inside the 7-day window). -/
def getAverageCooldown (events : List ℚ) : Option ℚ :=
  match events with
  | [] => none
  | _ =>
    let avg := events.sum / (events.length : ℚ)
    if avg = 0 then none else some avg

/-- The exponential-backoff branch of `RateLimitDetector.calculateCooldown`:
read the consecutive-strike count pre-increment, compute
`min(minCooldownMs · multiplier ^ strikes, maxCooldownMs)`, override with the
historical average when that is larger (re-clamped to `maxCooldownMs`), and
increment the strike count. Returns the rounded cooldown and the updated
strike count. -/
def calculateBackoff (cfg : RateLimitConfig) (consecutive : Nat)
    (events : List ℚ) : ℚ × Nat :=
  let computed := min (cfg.minCooldownMs * cfg.backoffMultiplier ^ consecutive)
      cfg.maxCooldownMs
  let withHist :=
    match getAverageCooldown events with
    | some avg => if avg > computed then min avg cfg.maxCooldownMs else computed
    | none => computed
  (jsRound withHist, consecutive + 1)

/-- `RateLimitDetector.calculateCooldown(endpointId, statusCode, responseData)`:
a truthy (non-null, non-zero) parsed `Retry-After` value is used as-is
(rounded); otherwise the exponential-backoff branch runs. The pair carries the
updated consecutive-strike count for the endpoint. -/
def calculateCooldown (cfg : RateLimitConfig) (dateParse : String → Option ℤ)
    (now : ℤ) (consecutive : Nat) (events : List ℚ)
    (responseData : Option BodyData) : ℚ × Nat :=
  match parseRetryAfter dateParse now responseData with
  | some v =>
    if v = 0 then calculateBackoff cfg consecutive events
    else (jsRound v, consecutive)
  | none => calculateBackoff cfg consecutive events

/-- `RateLimitDetector.checkHttpStatus(statusCode)`: falsy status (absent
or 0) gives `false`, otherwise membership in {429, 503, 403}. -/
def checkHttpStatus (statusCode : Option Int) : Bool :=
  match statusCode with
  | none => false
  | some c => if c = 0 then false else rateLimitHttpStatuses.contains c

/-- The `textToCheck` list assembled by `RateLimitDetector.checkResponseBody`:
a string body is lowercased whole; an object body contributes its truthy
`error.message`, or else its `JSON.stringify`; a truthy transport-error
message is appended. -/
def bodyTexts (responseData : Option BodyData) (err : Option TransportError) :
    List (List Char) :=
  (match responseData with
   | none => []
   | some (.str s) => [lowerChars s]
   | some (.obj e stringified _) =>
     match e with
     | some re =>
       match re.message with
       | some m => if m = "" then [lowerChars stringified] else [lowerChars m]
       | none => [lowerChars stringified]
     | none => [lowerChars stringified])
  ++ (match err with
      | none => []
      | some te =>
        match te.message with
        | some m => if m = "" then [] else [lowerChars m]
        | none => [])

/-- `RateLimitDetector.checkResponseBody(responseData, error)`: join the
assembled texts with a space and scan for `RATE_LIMIT_KEYWORDS`. -/
def checkResponseBody (responseData : Option BodyData)
    (err : Option TransportError) : Bool :=
  let combined := List.intercalate [' '] (bodyTexts responseData err)
  rateLimitKeywords.any (fun kw => containsSub combined kw)

/-- `StatisticsRepository.getRecentRequests(endpointId, limit)` restricted to
the `success` flags the detector consumes: the last `limit` rows of the
endpoint's `request_log` (stored oldest-first here), oldest-first. -/
def getRecentRequests (log : List Bool) (limit : Nat) : List Bool :=
  (log.reverse.take limit).reverse

/-- `RateLimitDetector.checkFailureRate(endpointId)`: over the most recent
`historyWindowSize` logged requests, `false` when fewer than 5 exist,
otherwise whether the failure fraction reaches `detectionThreshold`. -/
def checkFailureRate (cfg : RateLimitConfig) (log : List Bool) : Bool :=
  let recent := getRecentRequests log cfg.historyWindowSize
  if recent.length < 5 then false
  else
    let failureRate : ℚ :=
      ((recent.filter (fun s => !s)).length : ℚ) / (recent.length : ℚ)
    decide (cfg.detectionThreshold ≤ failureRate)

/-- `RateLimitDetector.checkTimeout(responseTime, error)`: `responseTime` is
ignored by the source; positive when the transport error carries code
`ETIMEDOUT` or `ECONNABORTED`, or its message contains `"timeout"`. -/
def checkTimeout (err : Option TransportError) : Bool :=
  match err with
  | none => false
  | some e =>
    e.code == some "ETIMEDOUT" || e.code == some "ECONNABORTED" ||
    (match e.message with
     | some m => containsSub (lowerChars m) "timeout"
     | none => false)

/-- The record returned by `RateLimitDetector.detectRateLimit`, extended with
the endpoint's consecutive-strike counter after the call (the JS method
mutates `this.consecutiveLimits`). -/
structure DetectResult where
  isRateLimited : Bool
  cooldownMs : ℚ
  confidence : ℚ
  httpStatusSignal : Bool
  responseBodySignal : Bool
  failureRateSignal : Bool
  timeoutSignal : Bool
  consecutiveAfter : Nat
deriving Repr, DecidableEq

/-- `RateLimitDetector.detectRateLimit(endpointId, responseData, statusCode,
responseTime, error)`. `consecutive` is the endpoint's strike counter before
the call, `events` its recorded rate-limit cooldowns, `log` its request-log
success flags (oldest first). -/
def detectRateLimit (cfg : RateLimitConfig) (dateParse : String → Option ℤ)
    (now : ℤ) (consecutive : Nat) (events : List ℚ) (log : List Bool)
    (responseData : Option BodyData) (statusCode : Option Int)
    (err : Option TransportError) : DetectResult :=
  let s1 := checkHttpStatus statusCode
  let s2 := checkResponseBody responseData err
  let s3 := checkFailureRate cfg log
  let s4 := checkTimeout err
  let signalCount := [s1, s2, s3, s4].countP (fun b => b)
  let confidence : ℚ := (signalCount : ℚ) / 4
  if 1 ≤ signalCount then
    let (cd, consec') := calculateCooldown cfg dateParse now consecutive events
        responseData
    ⟨true, cd, confidence, s1, s2, s3, s4, consec'⟩
  else
    ⟨false, 0, 0, s1, s2, s3, s4, 0⟩

/-- One rate-limit detection on an endpoint with no `Retry-After` header,
followed by `EndpointWorker.handleRateLimit` recording the chosen cooldown as
a `rate_limit_events` row: state is (strike counter, recorded cooldowns);
also returns the cooldown chosen by this detection. -/
def backoffStep (cfg : RateLimitConfig) (st : Nat × List ℚ) :
    (Nat × List ℚ) × ℚ :=
  let r := calculateCooldown cfg (fun _ => none) 0 st.1 st.2 none
  ((r.2, st.2 ++ [r.1]), r.1)

/-- `n` consecutive rate-limit detections (no `Retry-After`), each recording
its event; returns the list of chosen cooldowns and the final state. -/
def backoffRun (cfg : RateLimitConfig) : Nat → (Nat × List ℚ) →
    List ℚ × (Nat × List ℚ)
  | 0, st => ([], st)
  | n + 1, st =>
    let s := backoffStep cfg st
    let rest := backoffRun cfg n s.1
    (s.2 :: rest.1, rest.2)

/-! ## Worker queue (`EndpointWorker.queueRequest` / `processQueue`) -/

/-- `EndpointWorker.queueRequest(rpcRequest)` as it affects the queue: reject
(`Queue full`) when the queue already holds `maxQueueSize` items, otherwise
push the item on the tail. Returns the new queue and whether the promise was
rejected. -/
def queueRequest (maxQueueSize : Nat) (q : List α) (item : α) : List α × Bool :=
  if maxQueueSize ≤ q.length then (q, true)
  else (q ++ [item], false)

/-- A worker's queue together with the item the drain loop has shifted and is
awaiting upstream for, if any (`processQueue` between `queue.shift()` and the
response). -/
structure WorkerQueueState (α : Type) where
  queue : List α
  inflight : Option α
deriving Repr, DecidableEq

/-- The events that mutate a worker's queue: an enqueue from the router, the
drain loop shifting the head before the HTTP call, the call completing
terminally (resolve/reject), or a rate-limit verdict re-inserting the
in-flight item at the head (`queue.unshift(item)`). -/
inductive QueueEvent (α : Type) where
  | enqueue (a : α)
  | shiftHead
  | finishTerminal
  | finishRateLimited
deriving Repr, DecidableEq

/-- Queue-event semantics, straight from `queueRequest` / `processQueue`.
`shiftHead` only fires when no item is in flight and the queue is non-empty
(the drain loop is single-consumer); the finish events only fire with an item
in flight. An event whose precondition fails leaves the state unchanged. -/
def queueStep (maxQueueSize : Nat) (st : WorkerQueueState α) :
    QueueEvent α → WorkerQueueState α
  | .enqueue a => { st with queue := (queueRequest maxQueueSize st.queue a).1 }
  | .shiftHead =>
    match st.inflight, st.queue with
    | none, x :: rest => { queue := rest, inflight := some x }
    | _, _ => st
  | .finishTerminal =>
    match st.inflight with
    | some _ => { st with inflight := none }
    | none => st
  | .finishRateLimited =>
    match st.inflight with
    | some x => { queue := x :: st.queue, inflight := none }
    | none => st

/-- Run a list of queue events from a state. -/
def queueRun (maxQueueSize : Nat) (st : WorkerQueueState α) :
    List (QueueEvent α) → WorkerQueueState α
  | [] => st
  | e :: es => queueRun maxQueueSize (queueStep maxQueueSize st e) es

/-! ## Worker response handling (`processQueue`, success path) -/

/-- A `request_log` row as written by `StatisticsRepository.recordRequest`. -/
structure LogRow where
  success : Bool
  httpStatusCode : Option Int
  errorMessage : Option String
deriving Repr, DecidableEq

/-- What `processQueue` does with one dequeued item once the upstream HTTP
call returned a response (no transport error). -/
inductive ItemOutcome where
  | rateLimited
  | rejectedTemporary (row : LogRow)
  | resolved (row : LogRow)
deriving Repr, DecidableEq

/-- The response branch of `EndpointWorker.processQueue`: a rate-limit verdict
re-queues the item; a body with a temporary JSON-RPC error records a failure
(`recordFailure` — the thrown `Error` has no `response`, so the logged status
is `null`) and rejects with `TEMPORARY_ERROR`; every other response — a clean
result or a body carrying a permanent error object — calls
`recordSuccess(method, responseTime)`, which logs `success = true` and
status `200` unconditionally. `upstreamStatus` is the HTTP status the
upstream actually returned (`response.status`); the source never threads it
into the log row on this path. -/
def handleResponse (_upstreamStatus : Int) (body : Option BodyData)
    (isRateLimited : Bool) : ItemOutcome :=
  if isRateLimited then .rateLimited
  else
    match body with
    | some (.obj (some rpcError) _ _) =>
      if isTemporaryError (some rpcError) then
        .rejectedTemporary
          { success := false
            httpStatusCode := none
            errorMessage :=
              some (if (rpcError.message.getD "") = "" then "Unknown error"
                    else rpcError.message.getD "") }
      else
        .resolved { success := true, httpStatusCode := some 200, errorMessage := none }
    | _ =>
      .resolved { success := true, httpStatusCode := some 200, errorMessage := none }

/-! ## Statistics rows (`StatisticsRepository.recordRequest` /
`recordRateLimitEvent`) -/

/-- One `endpoint_statistics` row (counters only; timestamps omitted).
Schema defaults initialise every counter to 0. -/
structure EndpointStats where
  totalRequests : Nat
  successfulRequests : Nat
  failedRequests : Nat
  rateLimitedRequests : Nat
  totalResponseTimeMs : ℚ
  avgResponseTimeMs : ℚ
deriving Repr, DecidableEq

/-- The row created by `ensureEndpoint` (schema defaults: all zero). -/
def initialEndpointStats : EndpointStats :=
  { totalRequests := 0, successfulRequests := 0, failedRequests := 0
    rateLimitedRequests := 0, totalResponseTimeMs := 0, avgResponseTimeMs := 0 }

/-- `StatisticsRepository.recordRequest` restricted to its effect on the
`endpoint_statistics` row: bump the total, the matching success/failure
counter and the response-time accumulator (`responseTimeMs || 0`), and set the
average to `newTotalResponseTime / newTotalRequests`. -/
def recordRequest (st : EndpointStats) (success : Bool)
    (responseTimeMs : Option ℚ) : EndpointStats :=
  let newTotal := st.totalRequests + 1
  let newTotalRT := st.totalResponseTimeMs + responseTimeMs.getD 0
  { totalRequests := newTotal
    successfulRequests :=
      if success then st.successfulRequests + 1 else st.successfulRequests
    failedRequests :=
      if success then st.failedRequests else st.failedRequests + 1
    rateLimitedRequests := st.rateLimitedRequests
    totalResponseTimeMs := newTotalRT
    avgResponseTimeMs := newTotalRT / (newTotal : ℚ) }

/-- `StatisticsRepository.recordRateLimitEvent` restricted to its effect on
the `endpoint_statistics` row: only `rate_limited_requests` is bumped. -/
def recordRateLimitEvent (st : EndpointStats) : EndpointStats :=
  { st with rateLimitedRequests := st.rateLimitedRequests + 1 }

/-- The two repository writes that touch an `endpoint_statistics` row. -/
inductive StatsOp where
  | request (success : Bool) (responseTimeMs : Option ℚ)
  | rateLimit
deriving Repr

/-- Apply one repository write. -/
def applyStatsOp (st : EndpointStats) : StatsOp → EndpointStats
  | .request success rt => recordRequest st success rt
  | .rateLimit => recordRateLimitEvent st

/-- Apply a sequence of repository writes. -/
def applyStatsOps (st : EndpointStats) : List StatsOp → EndpointStats
  | [] => st
  | op :: ops => applyStatsOps (applyStatsOp st op) ops

/-- The spec's row invariant: `total = successful + failed`, and
`avg = totalResponseTime / total` whenever `total > 0`. -/
def statsInvariant (st : EndpointStats) : Prop :=
  st.totalRequests = st.successfulRequests + st.failedRequests ∧
  (0 < st.totalRequests →
    st.avgResponseTimeMs = st.totalResponseTimeMs / (st.totalRequests : ℚ))

/-! ## Request router (`RequestRouter.routeRequest`) -/

/-- JS `Math.min` on two integers. -/
def jsMin (a b : ℤ) : ℤ :=
  if a ≤ b then a else b

/-- A snapshot of one worker as the router reads it in a loop iteration:
its url, `isAvailable()`, `getQueueLength()` and `getRecoveryTime()` (the
source's `getRecoveryTime` is `Math.max(0, ...)`, hence non-negative). -/
structure WorkerSnap where
  url : String
  isAvail : Bool
  queueLen : Nat
  recovery : ℤ
deriving Repr, DecidableEq

/-- `WorkerPool.getShortestRecoveryTime()`: over the workers that are not
available, take the positive recovery times; `0` when there is no unavailable
worker or no positive time, otherwise their minimum. -/
def getShortestRecoveryTime (ws : List WorkerSnap) : ℤ :=
  let coolingDown := ws.filter (fun w => !w.isAvail)
  if coolingDown.isEmpty then 0
  else
    match (coolingDown.map (·.recovery)).filter (fun t => 0 < t) with
    | [] => 0
    | t :: ts => ts.foldl jsMin t

/-- `RequestRouter.selectWorker(workers)` on a non-empty list:
`workers.reduce((min, w) => w.queueLen < min.queueLen ? w : min)` — the first
worker with the smallest queue wins ties. -/
def selectWorker (w : WorkerSnap) (ws : List WorkerSnap) : WorkerSnap :=
  ws.foldl (fun m x => if x.queueLen < m.queueLen then x else m) w

/-- The router's per-request mutable state: the attempt counter, the
`triedWorkers` set (kept as a duplicate-free list), and — as history for the
analysis — the urls contacted so far, in order. -/
structure RouterState where
  attempts : Nat
  tried : List String
  contacted : List String
deriving Repr, DecidableEq

/-- `routeRequest`'s initial state. -/
def initialRouterState : RouterState :=
  { attempts := 0, tried := [], contacted := [] }

/-- `triedWorkers.add(url)` on the list model of the set. -/
def insertTried (tried : List String) (u : String) : List String :=
  if tried.contains u then tried else tried ++ [u]

/-- What the environment supplies to one iteration of `routeRequest`'s loop:
the pool snapshot and — should a worker be contacted — the settled result of
`worker.queueRequest(rpcRequest)` (`Except.error` is a rejection carrying
`error.message`, `Except.ok` a resolved body). -/
structure IterInput where
  workers : List WorkerSnap
  outcome : Except String String
deriving Repr

/-- `pool.getAvailableWorkers()` for one iteration. -/
def availableOf (inp : IterInput) : List WorkerSnap :=
  inp.workers.filter (·.isAvail)

/-- The `workersToTry` list of one iteration: the available workers not yet
tried, or every available worker when all have been tried. -/
def toTryOf (st : RouterState) (inp : IterInput) : List WorkerSnap :=
  let untriedWorkers :=
    (availableOf inp).filter (fun w => !(st.tried.contains w.url))
  if 0 < untriedWorkers.length then untriedWorkers else availableOf inp

/-- Result of one iteration of the `while (true)` loop in `routeRequest`:
return the body, throw `All RPC endpoints failed`, sleep (no worker
available), or go around again after a rejection. -/
inductive StepResult where
  | success (body : String) (st : RouterState)
  | failure (msg : String) (st : RouterState)
  | waiting (sleepMs : ℤ) (st : RouterState)
  | retry (st : RouterState)
deriving Repr, DecidableEq

/-- The `catch` block of `routeRequest`'s contact attempt (source lines
45-68): record the last error, add the contacted worker's url to
`triedWorkers`, throw `All RPC endpoints failed` when the tried set has
reached the size of the current availability list and the attempt count has
reached `maxRetries = allWorkers.length * 2`; otherwise clear the tried set
when it has reached that size, and go around the loop again. `avail` is this
iteration's `availableWorkers`, `st2` the state after `attempts++` and the
contact, `u` the contacted worker's url, `msg` the rejection's message. -/
def routeReject (allWorkers : List String) (avail : List WorkerSnap)
    (st2 : RouterState) (u : String) (msg : String) : StepResult :=
  let st3 : RouterState := { st2 with tried := insertTried st2.tried u }
  if avail.length ≤ st3.tried.length
      ∧ allWorkers.length * 2 ≤ st3.attempts then
    .failure ("All RPC endpoints failed: "
      ++ (if msg = "" then "Unknown error" else msg)) st3
  else if avail.length ≤ st3.tried.length then
    .retry { st3 with tried := [] }
  else
    .retry st3

/-- One iteration of `routeRequest`'s loop, from `attempts++` to the end of
the `while` body. `allWorkers` is the fixed pool roster
(`getAllWorkers()`). -/
def routeStep (allWorkers : List String) (st0 : RouterState)
    (inp : IterInput) : StepResult :=
  let st1 : RouterState := { st0 with attempts := st0.attempts + 1 }
  match toTryOf st1 inp with
  | [] =>
    let recoveryTime := getShortestRecoveryTime inp.workers
    let waitTime := jsMin (if recoveryTime = 0 then 5000 else recoveryTime) 5000
    .waiting waitTime st1
  | w :: rest =>
    let worker := selectWorker w rest
    let st2 : RouterState :=
      { st1 with contacted := st1.contacted ++ [worker.url] }
    match inp.outcome with
    | .ok body => .success body st2
    | .error msg => routeReject allWorkers (availableOf inp) st2 worker.url msg

/-- The settled fate of one routed request over a finite environment
schedule. -/
inductive RouteOutcome where
  | success (body : String) (st : RouterState)
  | failure (msg : String) (st : RouterState)
  | pending (st : RouterState)
deriving Repr, DecidableEq

/-- Iterate `routeStep` over a schedule; `pending` when the schedule ends
with the loop still running (the source loop only exits through return or
throw). -/
def routeRun (allWorkers : List String) (st : RouterState) :
    List IterInput → RouteOutcome
  | [] => .pending st
  | inp :: rest =>
    match routeStep allWorkers st inp with
    | .success b st' => .success b st'
    | .failure m st' => .failure m st'
    | .waiting _ st' => routeRun allWorkers st' rest
    | .retry st' => routeRun allWorkers st' rest

/-- The router state carried by a `RouteOutcome`. -/
def RouteOutcome.state : RouteOutcome → RouterState
  | .success _ st => st
  | .failure _ st => st
  | .pending st => st

/-- The router state carried by a `StepResult`. -/
def StepResult.state : StepResult → RouterState
  | .success _ st => st
  | .failure _ st => st
  | .waiting _ st => st
  | .retry st => st

/-- The worker-queue invariant that actually holds: at most `maxQueueSize`
items whenever an item is in flight, and at most `maxQueueSize + 1` items
otherwise (the head re-insertion of a rate-limited in-flight item can push the
queue one past the enqueue-time bound). -/
def queueInv (maxQueueSize : Nat) (st : WorkerQueueState α) : Prop :=
  st.queue.length ≤ maxQueueSize + 1 ∧
  (st.inflight.isSome → st.queue.length ≤ maxQueueSize)

/-- Environment schedule refuting the per-endpoint contact bound of claim C4:
three configured endpoints, of which only `A` is ever available, and every
contact is rejected. -/
def c4Schedule : List IterInput :=
  List.replicate 6
    { workers := [⟨"A", true, 0, 0⟩, ⟨"B", false, 0, 1000⟩, ⟨"C", false, 0, 1000⟩],
      outcome := .error "boom" }

/-- An iteration with no available worker (used between the two contacts of
the claim-C5 schedule; its `outcome` is never consulted). -/
def c5SleepInput : IterInput :=
  { workers := [⟨"A", false, 0, 500⟩, ⟨"B", false, 0, 500⟩, ⟨"C", false, 0, 500⟩],
    outcome := .error "ignored" }

/-- The final iteration of the claim-C5 schedule: `B` and `C` available, the
contact (of `B`) rejected. -/
def c5FinalInput : IterInput :=
  { workers := [⟨"A", false, 0, 500⟩, ⟨"B", true, 0, 0⟩, ⟨"C", true, 1, 0⟩],
    outcome := .error "e6" }

/-- Environment schedule refuting the coverage reading of claim C5: the
request fails on the sixth iteration although the available worker `C` was
never tried. -/
def c5Schedule : List IterInput :=
  [{ workers := [⟨"A", true, 0, 0⟩, ⟨"B", true, 1, 0⟩, ⟨"C", false, 0, 1000⟩],
     outcome := .error "e1" },
   c5SleepInput, c5SleepInput, c5SleepInput, c5SleepInput,
   c5FinalInput]

/-- An iteration with both workers cooling down (recovery 7000 ms and
3000 ms), for the claim-C9 witness. -/
def c9Input : IterInput :=
  { workers := [⟨"A", false, 2, 7000⟩, ⟨"B", false, 0, 3000⟩]
    outcome := .ok "x" }

/-! ## Helper lemmas -/

/-- Rounding a natural number (as a rational) is the identity. -/
theorem jsRound_natCast (k : ℕ) : jsRound (k : ℚ) = (k : ℚ) := by
  unfold jsRound
  have h : ((k : ℚ)) = ((k : ℤ) : ℚ) := by push_cast; ring
  rw [h, Int.floor_int_add]
  norm_num

/-- Every queue event preserves `queueInv`. -/
theorem queueStep_inv {maxQueueSize : Nat} {st : WorkerQueueState α}
    (h : queueInv maxQueueSize st) (e : QueueEvent α) :
    queueInv maxQueueSize (queueStep maxQueueSize st e) := by
  obtain ⟨q, inf⟩ := st
  obtain ⟨h1, h2⟩ := h
  simp only [queueInv] at h1 h2 ⊢
  cases e with
  | enqueue a =>
    simp only [queueStep, queueRequest]
    split
    · exact ⟨h1, h2⟩
    · rename_i hlt
      push_neg at hlt
      cases inf with
      | none => simp; omega
      | some x =>
        have := h2 (by simp)
        simp at this ⊢
        omega
  | shiftHead =>
    cases inf with
    | some x => exact ⟨h1, h2⟩
    | none =>
      cases q with
      | nil => exact ⟨h1, h2⟩
      | cons y ys =>
        simp only [queueStep]
        simp at h1 ⊢
        omega
  | finishTerminal =>
    cases inf with
    | some x =>
      simp only [queueStep]
      exact ⟨h1, by simp⟩
    | none => exact ⟨h1, h2⟩
  | finishRateLimited =>
    cases inf with
    | some x =>
      simp only [queueStep]
      have := h2 (by simp)
      simp at this ⊢
      omega
    | none => exact ⟨h1, h2⟩

/-- Any sequence of queue events preserves `queueInv`. -/
theorem queueRun_inv {maxQueueSize : Nat} {st : WorkerQueueState α}
    (h : queueInv maxQueueSize st) (events : List (QueueEvent α)) :
    queueInv maxQueueSize (queueRun maxQueueSize st events) := by
  induction events generalizing st with
  | nil => exact h
  | cons e es ih => exact ih (queueStep_inv h e)

/-- `recordRequest` preserves the statistics-row invariant. -/
theorem recordRequest_inv {st : EndpointStats} (h : statsInvariant st)
    (success : Bool) (rt : Option ℚ) :
    statsInvariant (recordRequest st success rt) := by
  obtain ⟨h1, _⟩ := h
  constructor
  · simp only [recordRequest]
    cases success <;> simp <;> omega
  · intro _
    rfl

/-- `recordRateLimitEvent` preserves the statistics-row invariant. -/
theorem recordRateLimitEvent_inv {st : EndpointStats}
    (h : statsInvariant st) : statsInvariant (recordRateLimitEvent st) := h

/-- Any sequence of repository writes preserves the row invariant. -/
theorem applyStatsOps_inv {st : EndpointStats} (h : statsInvariant st)
    (ops : List StatsOp) : statsInvariant (applyStatsOps st ops) := by
  induction ops generalizing st with
  | nil => exact h
  | cons op ops ih =>
    cases op with
    | request success rt => exact ih (recordRequest_inv h success rt)
    | rateLimit => exact ih (recordRateLimitEvent_inv h)

/-- The worker picked by `selectWorker` is one of the candidates. -/
theorem selectWorker_mem (w : WorkerSnap) (ws : List WorkerSnap) :
    selectWorker w ws ∈ w :: ws := by
  induction ws generalizing w with
  | nil => simp [selectWorker]
  | cons x xs ih =>
    simp only [selectWorker, List.foldl_cons]
    by_cases hc : x.queueLen < w.queueLen
    · have h := ih x
      simp only [selectWorker] at h
      simp only [if_pos hc]
      rcases List.mem_cons.mp h with h | h <;> simp [h]
    · have h := ih w
      simp only [selectWorker] at h
      simp only [if_neg hc]
      rcases List.mem_cons.mp h with h | h <;> simp [h]

/-- `workersToTry` draws from the iteration's pool snapshot. -/
theorem toTryOf_subset {st : RouterState} {inp : IterInput} :
    ∀ x ∈ toTryOf st inp, x ∈ inp.workers := by
  intro x hx
  simp only [toTryOf, availableOf] at hx
  split at hx
  · exact (List.mem_filter.mp (List.mem_filter.mp hx).1).1
  · exact (List.mem_filter.mp hx).1

/-- Unfolding `routeStep` on the no-candidate branch. -/
theorem routeStep_nil (allWorkers : List String) (st : RouterState)
    (inp : IterInput)
    (htry : toTryOf { st with attempts := st.attempts + 1 } inp = []) :
    routeStep allWorkers st inp =
      .waiting (jsMin (if getShortestRecoveryTime inp.workers = 0 then 5000
          else getShortestRecoveryTime inp.workers) 5000)
        { st with attempts := st.attempts + 1 } := by
  simp only [routeStep]
  rw [htry]

/-- Unfolding `routeStep` on the contact branch. -/
theorem routeStep_cons (allWorkers : List String) (st : RouterState)
    (inp : IterInput) (w : WorkerSnap) (rest : List WorkerSnap)
    (htry : toTryOf { st with attempts := st.attempts + 1 } inp = w :: rest) :
    routeStep allWorkers st inp =
      (match inp.outcome with
       | .ok body => .success body
           { attempts := st.attempts + 1, tried := st.tried,
             contacted := st.contacted ++ [(selectWorker w rest).url] }
       | .error msg => routeReject allWorkers (availableOf inp)
           { attempts := st.attempts + 1, tried := st.tried,
             contacted := st.contacted ++ [(selectWorker w rest).url] }
           (selectWorker w rest).url msg) := by
  simp only [routeStep]
  rw [htry]

/-- The rejection handler changes neither the contacted history nor the
attempt counter. -/
theorem routeReject_state (allWorkers : List String)
    (avail : List WorkerSnap) (st2 : RouterState) (u : String) (msg : String) :
    (routeReject allWorkers avail st2 u msg).state.contacted = st2.contacted
    ∧ (routeReject allWorkers avail st2 u msg).state.attempts
        = st2.attempts := by
  by_cases h1 : avail.length ≤ (insertTried st2.tried u).length
      ∧ allWorkers.length * 2 ≤ st2.attempts
  · simp [routeReject, h1, StepResult.state]
  · by_cases h2 : avail.length ≤ (insertTried st2.tried u).length
    · have h3 : ¬ (allWorkers.length * 2 ≤ st2.attempts) :=
        fun hh => h1 ⟨h2, hh⟩
      simp [routeReject, h1, h2, h3, StepResult.state]
    · simp [routeReject, h1, h2, StepResult.state]

/-- One loop iteration contacts at most one worker, drawn from the
iteration's pool snapshot. -/
theorem routeStep_contacted (allWorkers : List String) (st : RouterState)
    (inp : IterInput) :
    (routeStep allWorkers st inp).state.contacted = st.contacted ∨
    ∃ w, w ∈ inp.workers ∧
      (routeStep allWorkers st inp).state.contacted
        = st.contacted ++ [w.url] := by
  cases htry : toTryOf { st with attempts := st.attempts + 1 } inp with
  | nil =>
    left
    rw [routeStep_nil allWorkers st inp htry]
    rfl
  | cons w rest =>
    right
    have hmem : selectWorker w rest ∈ inp.workers := by
      have h1 : selectWorker w rest ∈ w :: rest := selectWorker_mem w rest
      have h2 := @toTryOf_subset { st with attempts := st.attempts + 1 } inp
      rw [htry] at h2
      exact h2 _ h1
    refine ⟨selectWorker w rest, hmem, ?_⟩
    rw [routeStep_cons allWorkers st inp w rest htry]
    cases houtcome : inp.outcome with
    | ok body => rfl
    | error msg =>
      exact (routeReject_state allWorkers (availableOf inp) _ _ msg).1

/-- Over any schedule whose snapshots stay inside the configured roster, the
contacted history stays inside the roster and grows by at most one url per
iteration. -/
theorem routeRun_contacted (allWorkers : List String)
    (schedule : List IterInput) (st : RouterState)
    (hw : ∀ inp ∈ schedule, ∀ w ∈ inp.workers, w.url ∈ allWorkers)
    (hc : ∀ u ∈ st.contacted, u ∈ allWorkers) :
    (∀ u ∈ (routeRun allWorkers st schedule).state.contacted, u ∈ allWorkers)
    ∧ (routeRun allWorkers st schedule).state.contacted.length
        ≤ st.contacted.length + schedule.length := by
  induction schedule generalizing st with
  | nil => exact ⟨hc, by simp [routeRun, RouteOutcome.state]⟩
  | cons inp rest ih =>
    have hstate : (∀ u ∈ (routeStep allWorkers st inp).state.contacted,
        u ∈ allWorkers) ∧
        (routeStep allWorkers st inp).state.contacted.length
          ≤ st.contacted.length + 1 := by
      have hw1 : ∀ w ∈ inp.workers, w.url ∈ allWorkers :=
        hw inp (List.mem_cons_self inp rest)
      rcases routeStep_contacted allWorkers st inp with h | ⟨w, hwmem, h⟩
      · rw [h]; exact ⟨hc, Nat.le_succ_of_le le_rfl⟩
      · rw [h]
        constructor
        · intro u hu
          rcases List.mem_append.mp hu with hu | hu
          · exact hc u hu
          · rw [List.mem_singleton.mp hu]; exact hw1 w hwmem
        · simp
    have hwrest : ∀ i ∈ rest, ∀ w ∈ i.workers, w.url ∈ allWorkers :=
      fun i hi => hw i (List.mem_cons_of_mem inp hi)
    simp only [routeRun]
    cases hres : routeStep allWorkers st inp with
    | success b st' =>
      rw [hres] at hstate
      simp only [StepResult.state] at hstate
      obtain ⟨ha, hb⟩ := hstate
      refine ⟨?_, ?_⟩
      · simpa only [RouteOutcome.state] using ha
      · simp only [RouteOutcome.state, List.length_cons]
        omega
    | failure m st' =>
      rw [hres] at hstate
      simp only [StepResult.state] at hstate
      obtain ⟨ha, hb⟩ := hstate
      refine ⟨?_, ?_⟩
      · simpa only [RouteOutcome.state] using ha
      · simp only [RouteOutcome.state, List.length_cons]
        omega
    | waiting ms st' =>
      rw [hres] at hstate
      simp only [StepResult.state] at hstate
      obtain ⟨ha, hb⟩ := hstate
      obtain ⟨hr1, hr2⟩ := ih st' hwrest ha
      refine ⟨hr1, ?_⟩
      simp only [List.length_cons]
      omega
    | retry st' =>
      rw [hres] at hstate
      simp only [StepResult.state] at hstate
      obtain ⟨ha, hb⟩ := hstate
      obtain ⟨hr1, hr2⟩ := ih st' hwrest ha
      refine ⟨hr1, ?_⟩
      simp only [List.length_cons]
      omega

/-- A `jsMin` fold is a lower bound of its seed and of every element. -/
theorem foldl_jsMin_le (t : ℤ) (l : List ℤ) :
    l.foldl jsMin t ≤ t ∧ ∀ x ∈ l, l.foldl jsMin t ≤ x := by
  induction l generalizing t with
  | nil => simp
  | cons x xs ih =>
    have h1 := ih (jsMin t x)
    have hmt : jsMin t x ≤ t := by unfold jsMin; split <;> omega
    have hmx : jsMin t x ≤ x := by unfold jsMin; split <;> omega
    simp only [List.foldl_cons]
    refine ⟨le_trans h1.1 hmt, ?_⟩
    intro y hy
    rcases List.mem_cons.mp hy with hy | hy
    · rw [hy]; exact le_trans h1.1 hmx
    · exact h1.2 y hy

/-- A `jsMin` fold returns its seed or one of the elements. -/
theorem foldl_jsMin_mem (t : ℤ) (l : List ℤ) :
    l.foldl jsMin t ∈ t :: l := by
  induction l generalizing t with
  | nil => simp
  | cons x xs ih =>
    have h := ih (jsMin t x)
    simp only [List.foldl_cons]
    rcases List.mem_cons.mp h with h | h
    · rw [h]
      unfold jsMin
      split
      · exact List.mem_cons_self t (x :: xs)
      · exact List.mem_cons_of_mem t (List.mem_cons_self x xs)
    · exact List.mem_cons_of_mem t (List.mem_cons_of_mem x h)

/-- `getShortestRecoveryTime` is 0 when no unavailable worker has a positive
recovery time, and otherwise the minimum of the positive recovery times. -/
theorem getShortestRecoveryTime_spec (ws : List WorkerSnap) :
    (((ws.filter (fun w => !w.isAvail)).map (fun w => w.recovery)).filter
        (fun t => decide (0 < t)) = []
      → getShortestRecoveryTime ws = 0)
    ∧ (∀ t ∈ ((ws.filter (fun w => !w.isAvail)).map
        (fun w => w.recovery)).filter (fun t => decide (0 < t)),
        getShortestRecoveryTime ws ≤ t)
    ∧ (((ws.filter (fun w => !w.isAvail)).map (fun w => w.recovery)).filter
        (fun t => decide (0 < t)) ≠ []
      → getShortestRecoveryTime ws
          ∈ ((ws.filter (fun w => !w.isAvail)).map
              (fun w => w.recovery)).filter (fun t => decide (0 < t))) := by
  unfold getShortestRecoveryTime
  cases hcd : ws.filter (fun w => !w.isAvail) with
  | nil => simp [hcd]
  | cons c cs =>
    simp only [hcd, List.isEmpty_cons, if_neg]
    cases hpos : ((c :: cs).map (fun w => w.recovery)).filter
        (fun t => decide (0 < t)) with
    | nil => simp
    | cons t ts =>
      refine ⟨by simp, ?_, ?_⟩
      · intro x hx
        rcases List.mem_cons.mp hx with hx | hx
        · rw [hx]; exact (foldl_jsMin_le t ts).1
        · exact (foldl_jsMin_le t ts).2 x hx
      · intro _
        exact foldl_jsMin_mem t ts

/-! ## Claim theorems -/

/-- Claim C1: the spec (and the repository's own temporary-errors document)
classifies `error.code = 14` / keywords `grpc`, `cancel` as transient, but
`isTemporaryError` in `EndpointWorker.js` lists neither code 14 nor the
keywords `grpc` and `cancel`: the response
`error.code = 14, error.message = "GRPC Context cancellation"` is
classified not temporary, and the worker forwards it to the client on the
success path (logging success with status 200) instead of rejecting it for
failover. -/
theorem claimC1_code_evaluation :
    isTemporaryError
      (some { code := some 14, message := some "GRPC Context cancellation" })
      = false ∧
    handleResponse 200
      (some (.obj
        (some { code := some 14, message := some "GRPC Context cancellation" })
        "serialized" none)) false
      = .resolved { success := true, httpStatusCode := some 200,
                    errorMessage := none } := by
  decide

/-- Claim C2 counterexample: with the default configuration
(`maxCooldownMs = 300000`), a rate-limited response carrying
`Retry-After: 400` yields cooldown 400000 ms — the value is NOT clamped to
`[0, maxCooldownMs]` as the claim states. -/
theorem claimC2_counterexample :
    (calculateCooldown defaultRateLimitConfig (fun _ => none) 0 0 []
        (some (.obj none "body" (some "400")))).1 = 400000 ∧
    defaultRateLimitConfig.maxCooldownMs = 300000 ∧
    ¬ ((400000 : ℚ) ≤ 300000) := by
  refine ⟨?_, rfl, by norm_num⟩
  simp [calculateCooldown, parseRetryAfter, digitsToNat, jsRound]
  norm_num

/-- Claim C2 (amended): for every response judged rate-limited that carries a
`Retry-After` header whose value is a digit string denoting a positive
integer `s`, the chosen cooldown is `s * 1000` milliseconds regardless of the
endpoint's current strike count (which is left unchanged), with NO clamping
applied on this path; in particular `Retry-After: 42` yields
`cooldownMs = 42000`. (`Retry-After: 0` is falsy in the source and falls
through to exponential backoff.) -/
theorem claimC2_amended (cfg : RateLimitConfig) (dateParse : String → Option ℤ)
    (now : ℤ) (consecutive : Nat) (events : List ℚ)
    (e : Option RpcError) (s : String) (ra : String)
    (hne : ra ≠ "") (hdig : ra.toList.all Char.isDigit = true)
    (hpos : 0 < digitsToNat ra.toList) :
    calculateCooldown cfg dateParse now consecutive events
        (some (.obj e s (some ra)))
      = ((digitsToNat ra.toList : ℚ) * 1000, consecutive) ∧
    (calculateCooldown defaultRateLimitConfig (fun _ => none) 0 0 []
        (some (.obj none "body" (some "42")))).1 = 42000 := by
  constructor
  · have hp : parseRetryAfter dateParse now (some (.obj e s (some ra)))
        = some ((digitsToNat ra.toList : ℚ) * 1000) := by
      simp only [parseRetryAfter]
      rw [if_neg hne, if_pos hdig]
    have hq : (0:ℚ) < (digitsToNat ra.toList : ℚ) := by exact_mod_cast hpos
    have hv : ((digitsToNat ra.toList : ℚ) * 1000) ≠ 0 :=
      ne_of_gt (mul_pos hq (by norm_num))
    have hcast : (digitsToNat ra.toList : ℚ) * 1000
        = ((digitsToNat ra.toList * 1000 : ℕ) : ℚ) := by push_cast; ring
    simp only [calculateCooldown, hp]
    rw [if_neg hv, hcast, jsRound_natCast]
  · simp [calculateCooldown, parseRetryAfter, digitsToNat, jsRound]
    norm_num

/-- Claim C2 witness: the amended theorem applied to `Retry-After: 42` at
strike count 7 with one recorded event. -/
theorem claimC2_witness :
    ("42" ≠ "") ∧
    (calculateCooldown defaultRateLimitConfig (fun _ => none) 0 7 [60000]
        (some (.obj none "body" (some "42")))
      = ((digitsToNat "42".toList : ℚ) * 1000, 7) ∧
    (calculateCooldown defaultRateLimitConfig (fun _ => none) 0 0 []
        (some (.obj none "body" (some "42")))).1 = 42000) :=
  ⟨by decide, claimC2_amended defaultRateLimitConfig (fun _ => none) 0 7
      [60000] none "body" "42" (by decide) (by decide) (by decide)⟩

/-- Claim C3 counterexample: after five consecutive rate-limit detections
(cooldowns 60, 120, 240, 300, 300 seconds each recorded as a
`rate_limit_events` row) and a strike reset, the next rate-limit detection
chooses 204000 ms — not the 60000 ms the claim states — because the
historical average cooldown (204000 ms) exceeds the freshly computed base and
overrides it. -/
theorem claimC3_counterexample :
    (backoffStep defaultRateLimitConfig
      (0, (backoffRun defaultRateLimitConfig 5 (0, [])).2.2)).2 = 204000 ∧
    (204000 : ℚ) ≠ 60000 := by
  constructor
  · simp [backoffRun, backoffStep, calculateCooldown, parseRetryAfter,
          calculateBackoff, getAverageCooldown, defaultRateLimitConfig,
          jsRound]
    norm_num
  · norm_num

/-- Claim C3 (amended): with the default configuration, starting from strike
count 0 with no prior rate-limit events, five consecutive rate-limit
detections with no `Retry-After` choose cooldowns 60 s, 120 s, 240 s, 300 s,
300 s (base times multiplier to the pre-increment strike count, clamped);
after a reset of the strike counter, the next detection chooses 204 s, the
historical average over the five recorded events, because
`calculateCooldown` overrides the freshly computed 60 s with the larger
historical average (clamped to `maxCooldownMs`). -/
theorem claimC3_amended :
    (backoffRun defaultRateLimitConfig 5 (0, [])).1
      = [60000, 120000, 240000, 300000, 300000] ∧
    (backoffStep defaultRateLimitConfig
      (0, (backoffRun defaultRateLimitConfig 5 (0, [])).2.2)).2 = 204000 := by
  constructor <;>
  · simp [backoffRun, backoffStep, calculateCooldown, parseRetryAfter,
          calculateBackoff, getAverageCooldown, defaultRateLimitConfig,
          jsRound]
    norm_num

/-- Claim C4 counterexample: with roster `[A, B, C]` and only `A` ever
available, a failing request contacts `A` six times — more than the twice the
claim allows — before `routeRequest` throws `All RPC endpoints failed`. -/
theorem claimC4_counterexample :
    routeRun ["A", "B", "C"] initialRouterState c4Schedule
      = .failure "All RPC endpoints failed: boom"
          { attempts := 6, tried := ["A"],
            contacted := ["A", "A", "A", "A", "A", "A"] }
    ∧ 2 < List.count "A" ["A", "A", "A", "A", "A", "A"] := by decide

/-- Claim C4 (amended): for any single routed request, the set of endpoints
actually contacted is a subset of the configured endpoints, and at most one
endpoint is contacted per loop iteration; the per-endpoint bound, however, is
not two — one endpoint can absorb every attempt up to the
`2 * allWorkers.length` attempt cap. -/
theorem claimC4_amended (allWorkers : List String) (schedule : List IterInput)
    (hw : ∀ inp ∈ schedule, ∀ w ∈ inp.workers, w.url ∈ allWorkers) :
    (∀ u ∈ (routeRun allWorkers initialRouterState schedule).state.contacted,
      u ∈ allWorkers)
    ∧ (routeRun allWorkers initialRouterState schedule).state.contacted.length
        ≤ schedule.length := by
  have h := routeRun_contacted allWorkers schedule initialRouterState hw
    (by simp [initialRouterState])
  exact ⟨h.1, by simpa [initialRouterState] using h.2⟩

/-- Claim C4 witness: the amended theorem applied to a one-shot schedule. -/
theorem claimC4_witness :
    (∀ u ∈ (routeRun ["A"] initialRouterState
        [{ workers := [⟨"A", true, 0, 0⟩], outcome := .ok "res" }]).state.contacted,
      u ∈ ["A"])
    ∧ (routeRun ["A"] initialRouterState
        [{ workers := [⟨"A", true, 0, 0⟩],
           outcome := .ok "res" }]).state.contacted.length ≤ 1 :=
  claimC4_amended ["A"]
    [{ workers := [⟨"A", true, 0, 0⟩], outcome := .ok "res" }] (by decide)

/-- Claim C5 counterexample: on the schedule `c5Schedule` the request fails
with `All RPC endpoints failed: e6` while worker `C` is available and was
never tried — the failure condition compares the SIZE of the tried set with
the size of the availability list (`|tried| >= |available|`), it does not
require the tried set to cover the available workers as the claim states. -/
theorem claimC5_counterexample :
    routeRun ["A", "B", "C"] initialRouterState c5Schedule
      = .failure "All RPC endpoints failed: e6"
          { attempts := 6, tried := ["A", "B"], contacted := ["A", "B"] }
    ∧ (availableOf c5FinalInput).map (fun w => w.url) = ["B", "C"]
    ∧ ¬ ("C" ∈ (["A", "B"] : List String)) := by decide

/-- Claim C5 (amended): after a worker rejection, `routeRequest` fails the
whole request with `All RPC endpoints failed: <last error message>` exactly
when the tried set's size has reached the size of the current availability
list AND the attempt count has reached `2 * allWorkers.length`; if only the
size condition holds, the tried set is cleared and routing continues; if
neither, routing continues with the grown tried set. -/
theorem claimC5_amended (allWorkers : List String) (st : RouterState)
    (inp : IterInput) (msg : String) (w : WorkerSnap) (rest : List WorkerSnap)
    (houtcome : inp.outcome = .error msg)
    (htry : toTryOf { st with attempts := st.attempts + 1 } inp = w :: rest) :
    routeStep allWorkers st inp =
      (let u := (selectWorker w rest).url
       let newTried := insertTried st.tried u
       let stA : RouterState :=
         { attempts := st.attempts + 1, tried := newTried,
           contacted := st.contacted ++ [u] }
       if (availableOf inp).length ≤ newTried.length
           ∧ allWorkers.length * 2 ≤ st.attempts + 1 then
         .failure ("All RPC endpoints failed: "
           ++ (if msg = "" then "Unknown error" else msg)) stA
       else if (availableOf inp).length ≤ newTried.length then
         .retry { stA with tried := [] }
       else .retry stA) := by
  rw [routeStep_cons allWorkers st inp w rest htry, houtcome]
  rfl

/-- Claim C5 witness: the amended theorem at a concrete rejection that meets
both conditions, yielding the terminal failure. -/
theorem claimC5_witness :
    routeStep ["A", "B"] { attempts := 3, tried := ["B"], contacted := [] }
      { workers := [⟨"A", true, 0, 0⟩, ⟨"B", true, 0, 0⟩], outcome := .error "e" }
      = .failure "All RPC endpoints failed: e"
          { attempts := 4, tried := ["B", "A"], contacted := ["A"] } := by
  have h := claimC5_amended ["A", "B"]
      { attempts := 3, tried := ["B"], contacted := [] }
      { workers := [⟨"A", true, 0, 0⟩, ⟨"B", true, 0, 0⟩], outcome := .error "e" }
      "e" ⟨"A", true, 0, 0⟩ [] rfl (by decide)
  rw [h]
  decide

/-- Claim C6: `detectRateLimit` evaluates exactly the four signals (HTTP
status in 429/503/403; a rate-limit keyword in the assembled body and
transport-error text; failure fraction at least `detectionThreshold` over the
most recent `historyWindowSize` logged requests when at least 5 exist; a
timeout indicator on the transport error) and reports rate limiting exactly
when at least one signal is positive, with confidence equal to the positive
count divided by 4; when no signal is positive it resets the endpoint's
consecutive-strike counter to 0 and returns cooldown 0. -/
theorem claimC6_detect (cfg : RateLimitConfig) (dateParse : String → Option ℤ)
    (now : ℤ) (consecutive : Nat) (events : List ℚ) (log : List Bool)
    (responseData : Option BodyData) (statusCode : Option Int)
    (err : Option TransportError) :
    ((detectRateLimit cfg dateParse now consecutive events log responseData
        statusCode err).isRateLimited
      = (checkHttpStatus statusCode || checkResponseBody responseData err
          || checkFailureRate cfg log || checkTimeout err))
    ∧ ((detectRateLimit cfg dateParse now consecutive events log responseData
        statusCode err).confidence
      = (([checkHttpStatus statusCode, checkResponseBody responseData err,
           checkFailureRate cfg log, checkTimeout err].countP (fun b => b) : ℚ)
          / 4))
    ∧ (checkHttpStatus statusCode = false →
        checkResponseBody responseData err = false →
        checkFailureRate cfg log = false → checkTimeout err = false →
        (detectRateLimit cfg dateParse now consecutive events log responseData
          statusCode err).consecutiveAfter = 0
        ∧ (detectRateLimit cfg dateParse now consecutive events log
            responseData statusCode err).cooldownMs = 0)
    ∧ (∀ c : Int, checkHttpStatus (some c) = true
        ↔ (c = 429 ∨ c = 503 ∨ c = 403))
    ∧ checkHttpStatus none = false
    ∧ (checkFailureRate cfg log = true ↔
        (5 ≤ (getRecentRequests log cfg.historyWindowSize).length
          ∧ cfg.detectionThreshold ≤
            (((getRecentRequests log cfg.historyWindowSize).filter
                (fun s => !s)).length : ℚ)
              / ((getRecentRequests log cfg.historyWindowSize).length : ℚ))) := by
  refine ⟨?_, ?_, ?_, ?_, rfl, ?_⟩
  · cases hs1 : checkHttpStatus statusCode <;>
      cases hs2 : checkResponseBody responseData err <;>
      cases hs3 : checkFailureRate cfg log <;>
      cases hs4 : checkTimeout err <;>
      simp [detectRateLimit, hs1, hs2, hs3, hs4]
  · cases hs1 : checkHttpStatus statusCode <;>
      cases hs2 : checkResponseBody responseData err <;>
      cases hs3 : checkFailureRate cfg log <;>
      cases hs4 : checkTimeout err <;>
      simp [detectRateLimit, hs1, hs2, hs3, hs4]
  · intro hs1 hs2 hs3 hs4
    simp [detectRateLimit, hs1, hs2, hs3, hs4]
  · intro c
    by_cases hc : c = 0
    · subst hc; simp [checkHttpStatus, rateLimitHttpStatuses]
    · simp [checkHttpStatus, rateLimitHttpStatuses, hc]
  · dsimp only [checkFailureRate]
    by_cases hlen : (getRecentRequests log cfg.historyWindowSize).length < 5
    · simp only [if_pos hlen, Bool.false_eq_true, false_iff, not_and]
      intro h5
      omega
    · simp only [if_neg hlen, decide_eq_true_eq]
      push_neg at hlen
      exact ⟨fun hthr => ⟨hlen, hthr⟩, fun h => h.2⟩

/-- Claim C6 witness: a response with no positive signal (HTTP 200, clean
body, no transport error, empty history) resets the strike counter and
returns cooldown 0. -/
theorem claimC6_witness :
    checkHttpStatus (some 200) = false ∧
    ((detectRateLimit defaultRateLimitConfig (fun _ => none) 0 3 [] []
        none (some 200) none).consecutiveAfter = 0
      ∧ (detectRateLimit defaultRateLimitConfig (fun _ => none) 0 3 [] []
        none (some 200) none).cooldownMs = 0) :=
  ⟨by decide,
   (claimC6_detect defaultRateLimitConfig (fun _ => none) 0 3 [] []
      none (some 200) none).2.2.1
     (by decide) (by decide) (by decide) (by decide)⟩

/-- Claim C7 counterexample: with `maxQueueSize = 1`, enqueue an item, start
processing it (shift), accept a second enqueue while the first is in flight,
then re-insert the first at the head on a rate-limit verdict: the queue now
holds 2 items, exceeding `maxQueueSize`. -/
theorem claimC7_counterexample :
    (queueRun 1 { queue := ([] : List Nat), inflight := none }
      [.enqueue 0, .shiftHead, .enqueue 1, .finishRateLimited]).queue.length
      = 2 ∧
    ¬ (2 ≤ 1) := by decide

/-- Claim C7 (amended): `queueRequest` rejects with `Queue full` exactly when
the queue already holds at least `maxQueueSize` items, leaving the queue
unchanged in that case and appending the item otherwise; consequently the
queue length never exceeds `maxQueueSize + 1` — the bound `maxQueueSize`
itself can be exceeded by exactly one via the head re-insertion of an
in-flight rate-limited item after the queue refilled. -/
theorem claimC7_amended (α : Type) (maxQueueSize : Nat) (q : List α) (a : α)
    (events : List (QueueEvent α)) :
    (maxQueueSize ≤ q.length → queueRequest maxQueueSize q a = (q, true)) ∧
    (q.length < maxQueueSize →
      queueRequest maxQueueSize q a = (q ++ [a], false)) ∧
    (queueRun maxQueueSize { queue := [], inflight := none }
        events).queue.length ≤ maxQueueSize + 1 := by
  refine ⟨fun h => ?_, fun h => ?_, ?_⟩
  · simp [queueRequest, h]
  · simp [queueRequest, Nat.not_le.mpr h]
  · exact (queueRun_inv (by simp [queueInv]) events).1

/-- Claim C7 witness: the amended theorem applied at `maxQueueSize = 1` with
a full queue and a one-event run. -/
theorem claimC7_witness :
    queueRequest 1 [5] 6 = ([5], true) ∧
    (queueRun 1 { queue := ([] : List Nat), inflight := none }
      [.enqueue 0]).queue.length ≤ 2 :=
  ⟨(claimC7_amended Nat 1 [5] 6 [.enqueue 0]).1 (by decide),
   (claimC7_amended Nat 1 [5] 6 [.enqueue 0]).2.2⟩

/-- Claim C8: starting from the freshly created all-zero statistics row, any
sequence of `recordRequest` and `recordRateLimitEvent` writes maintains
`total_requests = successful_requests + failed_requests` and
`avg_response_time_ms = total_response_time_ms / total_requests` whenever
`total_requests > 0`; and `recordRateLimitEvent` increments only
`rate_limited_requests`, leaving every other column unchanged. -/
theorem claimC8_invariant (ops : List StatsOp) :
    statsInvariant (applyStatsOps initialEndpointStats ops) ∧
    (∀ st : EndpointStats, recordRateLimitEvent st
        = { st with rateLimitedRequests := st.rateLimitedRequests + 1 }) := by
  refine ⟨applyStatsOps_inv ?_ ops, fun st => rfl⟩
  exact ⟨rfl, fun h => absurd h (by simp [initialEndpointStats])⟩

/-- Claim C8 witness: the invariant after one success and one rate-limit
event. -/
theorem claimC8_witness :
    statsInvariant (applyStatsOps initialEndpointStats
      [.request true (some 5), .rateLimit]) :=
  (claimC8_invariant [.request true (some 5), .rateLimit]).1

/-- Claim C9: when no worker is available, the routing loop never fails the
request — it sleeps `min(shortestRecoveryMs, 5000)` milliseconds (5000 when
`getShortestRecoveryTime` reports 0, that is, when no unavailable worker has
a positive recovery time) and goes around again; and
`getShortestRecoveryTime` is 0 exactly in that no-positive-time case and
otherwise the minimum of the positive recovery times of the unavailable
workers. -/
theorem claimC9_hold (allWorkers : List String) (st : RouterState)
    (inp : IterInput) (h : availableOf inp = []) :
    routeStep allWorkers st inp =
      .waiting (jsMin (if getShortestRecoveryTime inp.workers = 0 then 5000
          else getShortestRecoveryTime inp.workers) 5000)
        { st with attempts := st.attempts + 1 }
    ∧ ((((inp.workers.filter (fun w => !w.isAvail)).map
          (fun w => w.recovery)).filter (fun t => decide (0 < t)) = []
        → getShortestRecoveryTime inp.workers = 0)
      ∧ (∀ t ∈ ((inp.workers.filter (fun w => !w.isAvail)).map
          (fun w => w.recovery)).filter (fun t => decide (0 < t)),
          getShortestRecoveryTime inp.workers ≤ t)
      ∧ (((inp.workers.filter (fun w => !w.isAvail)).map
          (fun w => w.recovery)).filter (fun t => decide (0 < t)) ≠ []
        → getShortestRecoveryTime inp.workers
            ∈ ((inp.workers.filter (fun w => !w.isAvail)).map
                (fun w => w.recovery)).filter (fun t => decide (0 < t)))) := by
  constructor
  · apply routeStep_nil
    simp [toTryOf, h]
  · exact getShortestRecoveryTime_spec inp.workers

/-- Claim C9 witness: two cooling-down workers with recovery times 7000 ms
and 3000 ms make the router sleep 3000 ms without failing. -/
theorem claimC9_witness :
    availableOf c9Input = [] ∧
    routeStep ["A", "B"] initialRouterState c9Input
      = .waiting 3000 { attempts := 1, tried := [], contacted := [] } := by
  refine ⟨by decide, ?_⟩
  have h := (claimC9_hold ["A", "B"] initialRouterState c9Input
      (by decide)).1
  rw [h]
  decide

/-- Claim C10: every request-log row written on the worker's success path —
including a response body carrying a permanent (non-transient) JSON-RPC
error object, which is forwarded to the client — records `success = true`
and `http_status_code = 200`, regardless of the HTTP status the upstream
actually returned. -/
theorem claimC10_success (upstreamStatus : Int) (body : Option BodyData)
    (row : LogRow)
    (h : handleResponse upstreamStatus body false = .resolved row) :
    row = { success := true, httpStatusCode := some 200,
            errorMessage := none } ∧
    (∀ (e : RpcError) (s : String) (r : Option String),
      isTemporaryError (some e) = false →
      handleResponse upstreamStatus (some (.obj (some e) s r)) false
        = .resolved { success := true, httpStatusCode := some 200,
                      errorMessage := none }) := by
  constructor
  · cases body with
    | none => simpa [handleResponse] using h.symm
    | some bd =>
      cases bd with
      | str s => simpa [handleResponse] using h.symm
      | obj e st ra =>
        cases e with
        | none => simpa [handleResponse] using h.symm
        | some re =>
          by_cases ht : isTemporaryError (some re) = true
          · simp [handleResponse, ht] at h
          · simp only [handleResponse, if_neg, Bool.not_eq_true] at h
            rw [Bool.not_eq_true] at ht
            simp [ht] at h
            exact h.symm
  · intro e s r ht
    simp [handleResponse, ht]

/-- Claim C10 witness: an upstream HTTP 404 whose body carries the permanent
error `-32601 Method not found` is logged as `success = true` with status
200. -/
theorem claimC10_witness :
    handleResponse 404
      (some (.obj (some ⟨some (-32601), some "Method not found"⟩)
        "serialized" none)) false
      = .resolved { success := true, httpStatusCode := some 200,
                    errorMessage := none } ∧
    ({ success := true, httpStatusCode := some 200, errorMessage := none }
        : LogRow)
      = { success := true, httpStatusCode := some 200, errorMessage := none } :=
  ⟨by decide,
   (claimC10_success 404
      (some (.obj (some ⟨some (-32601), some "Method not found"⟩)
        "serialized" none))
      { success := true, httpStatusCode := some 200, errorMessage := none }
      (by decide)).1⟩

end Distributor
